import Mathlib

/-!
# Verification of the invoice-review incoming bot core

Shallow embedding of the remote-record reconciliation pipeline of
`src/index.js`: the throttled transport (`shopifyFetch`, `__withShopifyThrottle`),
the selection-to-fields compiler embedded in the modal submission handlers,
the initial-state extractor (`buildInitialsFromMetafields`), and the batch
runner (`runWithConcurrency`).
-/

namespace InvoiceBot

/-! ## Throttled transport: retry policy (`shopifyFetch`, src/index.js:920-948)

A remote call is modelled against a script: the list of HTTP responses the
server would return to the successive requests.  `shopifyFetch` consumes one
response per request, retrying per the source's rules, and reports the final
result together with the number of requests performed and the list of backoff
sleeps (in milliseconds). -/

structure HttpResponse where
  status : Nat
  statusText : String
  /-- `Retry-After` header, in seconds, when the server supplies one. -/
  retryAfterSecs : Option Nat
  body : String
deriving Repr, DecidableEq

/-- `res.status === 429 || (res.status >= 500 && res.status < 600)` -/
def statusRetryable (s : Nat) : Bool :=
  s == 429 || (500 ≤ s && s < 600)

/-- `res.ok`: HTTP status in the 2xx range. -/
def statusOk (s : Nat) : Bool :=
  200 ≤ s && s < 300

/-- `retryAfterHeader ? parseFloat(retryAfterHeader) * 1000 : Math.min(2000 * attempt, 10000)` -/
def retryDelayMs (r : HttpResponse) (attempt : Nat) : Nat :=
  match r.retryAfterSecs with
  | some secs => secs * 1000
  | none => min (2000 * attempt) 10000

/-- Terminal non-2xx outcome: `Shopify ... failed: ${res.status} ${res.statusText} - ${text}`. -/
structure TransportError where
  status : Nat
  statusText : String
  body : String
deriving Repr, DecidableEq

structure FetchTrace where
  /-- `none` when the response script was exhausted before the call settled. -/
  result : Option (Except TransportError String)
  /-- number of HTTP requests performed -/
  requests : Nat
  /-- backoff sleeps performed, in order, in milliseconds -/
  delays : List Nat
deriving Repr

/-- Embedding of `shopifyFetch` (src/index.js:920-948) run against a response
script.  On a 429/5xx response with `attempt <= 5` it sleeps the computed
delay and recurses with `attempt + 1`; otherwise a non-2xx response raises a
`TransportError` and a 2xx response returns its body. -/
def shopifyFetch : List HttpResponse → Nat → FetchTrace
  | [], _ => ⟨none, 0, []⟩
  | r :: rest, attempt =>
    if statusRetryable r.status = true ∧ attempt ≤ 5 then
      let t := shopifyFetch rest (attempt + 1)
      ⟨t.result, t.requests + 1, retryDelayMs r attempt :: t.delays⟩
    else if statusOk r.status = true then
      ⟨some (.ok r.body), 1, []⟩
    else
      ⟨some (.error ⟨r.status, r.statusText, r.body⟩), 1, []⟩

/-! ## Throttled transport: the global gate (`__withShopifyThrottle`, src/index.js:899-913)

The gate is the single mutable resource: each wrapped call waits for the
previous call's release, runs, and schedules the release of the next caller
`__SHOPIFY_MIN_GAP_MS` after it finishes (in a `finally`, hence regardless of
success or failure).  Time is modelled as an explicit clock in milliseconds. -/

def SHOPIFY_MIN_GAP_MS : Nat := 400

structure GatedCall where
  /-- when the caller reaches the gate -/
  arrival : Nat
  /-- how long the wrapped remote call takes once started -/
  duration : Nat
  /-- whether the wrapped call resolves (`true`) or rejects (`false`) -/
  ok : Bool
deriving Repr, DecidableEq

structure GateRun where
  start : Nat
  finish : Nat
  /-- when `setTimeout(release, __SHOPIFY_MIN_GAP_MS)` fires -/
  releaseAt : Nat
deriving Repr, DecidableEq

/-- One pass through `__withShopifyThrottle`: the call starts once both the
caller has arrived and the previous gate promise is released, and the next
release is scheduled a fixed gap after the call settles. -/
def withShopifyThrottle (gateReady : Nat) (c : GatedCall) : GateRun :=
  let s := max c.arrival gateReady
  let f := s + c.duration
  ⟨s, f, f + SHOPIFY_MIN_GAP_MS⟩

/-- Consecutive gated calls: each one chains on the previous call's release. -/
def runThrottled (gateReady : Nat) : List GatedCall → List GateRun
  | [] => []
  | c :: cs =>
    let r := withShopifyThrottle gateReady c
    r :: runThrottled r.releaseAt cs

/-! ## JavaScript string primitives

The JS string methods the source uses (`trim`, `toLowerCase`, `toUpperCase`,
`startsWith`, `includes`, `split`), modelled on the character list so that all
definitions evaluate by kernel reduction. -/

/-- `s.trim()` -/
def jsTrim (s : String) : String :=
  ⟨((s.data.dropWhile Char.isWhitespace).reverse.dropWhile Char.isWhitespace).reverse⟩

/-- `s.toLowerCase()` -/
def jsToLower (s : String) : String :=
  ⟨s.data.map Char.toLower⟩

/-- `s.toUpperCase()` -/
def jsToUpper (s : String) : String :=
  ⟨s.data.map Char.toUpper⟩

/-- `s.startsWith(pre)` -/
def jsStartsWith (s pre : String) : Bool :=
  pre.data.isPrefixOf s.data

def listIsInfix (pat : List Char) : List Char → Bool
  | [] => pat.isEmpty
  | c :: rest => pat.isPrefixOf (c :: rest) || listIsInfix pat rest

/-- `s.includes(pat)` -/
def jsIncludes (s pat : String) : Bool :=
  listIsInfix pat.data s.data

/-- `s.split(sep)` for a one-character separator, on the character list. -/
def splitCharList (sep : Char) : List Char → List (List Char)
  | [] => [[]]
  | c :: rest =>
    let r := splitCharList sep rest
    if c = sep then [] :: r
    else
      match r with
      | h :: t => (c :: h) :: t
      | [] => [[c]]

/-- `s.split(sep)` for a one-character separator. -/
def jsSplit (s : String) (sep : Char) : List String :=
  (splitCharList sep s.data).map String.mk

/-- `s.includes(c)` / `String.prototype.indexOf` hit for one character. -/
def jsContainsChar (s : String) (c : Char) : Bool :=
  s.data.contains c

/-! ## Remote field map and the initial-state extractor
(`fetchOrderMetafields` / `buildInitialsFromMetafields`, src/index.js:952-1072)

The `{"namespace.key": value}` object produced by `fetchOrderMetafields` is
modelled as an association list; reading a key mirrors `(mfMap[k] || '').trim()`. -/

abbrev MfMap := List (String × String)

def mfLookup (m : MfMap) (k : String) : Option String :=
  (m.find? (fun p => p.1 == k)).map (fun p => p.2)

/-- `const v = (k) => (mfMap[k] || '').trim()` -/
def mfv (m : MfMap) (k : String) : String :=
  jsTrim ((mfLookup m k).getD "")

structure Initials where
  useMeta : Bool
  partsSelections : List String
  fulfillment : String
  payment : String
  otherText : String
  setAsideText : String
deriving Repr, DecidableEq

/-- Embedding of `buildInitialsFromMetafields` (src/index.js:1007-1072).
When the completion marker `custom.initial_slack_tagging_done` is not `yes`
(case-insensitively) the fixed defaults are returned; otherwise the selections
are decoded from the field values.  In the source the unrecognized-value
branches of the fulfillment/payment chains leave the previously assigned
defaults (`'ship'` / `'pif'`) in place; the final `else` arms below are those
carried-through defaults. -/
def buildInitialsFromMetafields (m : MfMap) : Initials :=
  let v := fun k => mfv m k
  let taggingDone := jsToLower (v "custom.initial_slack_tagging_done")
  let useMeta := taggingDone = "yes"
  if useMeta then
    let otherText := v "custom.parts_other"
    let setAsideText := v "custom.parts_set_aside_already"
    let partsSelections :=
      (if jsToLower (v "custom.parts_steering_wheel") = "steering wheel" then ["steering_wheel"] else []) ++
      (if jsToLower (v "custom.parts_trim") = "trim" then ["trim"] else []) ++
      (if jsToLower (v "custom.parts_paddles") = "paddles" then ["paddles"] else []) ++
      (if jsToLower (v "custom.parts_magnetic_paddles") = "magnetic paddles" then ["magnetic_paddles"] else []) ++
      (if jsToLower (v "custom.parts_da_module") = "da module" then ["da_module"] else []) ++
      (if jsToLower (v "custom.parts_return_label") = "return label" then ["return_label"] else []) ++
      (if jsTrim otherText ≠ "" then ["other"] else []) ++
      (if jsTrim setAsideText ≠ "" then ["set_aside"] else [])
    let f := v "custom.ship_install_pickup"
    let fulfillment :=
      if f = "Ship" then "ship"
      else if f = "Install/Pickup" then "install_pickup"
      else if f = "TBD" then "tbd"
      else "ship"
    let p := v "custom.pif_or_not"
    let payment :=
      if p = "PIF" then "pif"
      else if p = "Deposit" then "deposit"
      else if p = "PIF + Pre-Paid Install" then "pif_prepaid_install"
      else if p = "Unpaid" then "unpaid"
      else if p = "Unknown" then "unknown"
      else if p = "" then "unknown"
      else "pif"
    ⟨useMeta, partsSelections, fulfillment, payment, otherText, setAsideText⟩
  else
    ⟨useMeta, ["steering_wheel"], "ship", "pif", "", ""⟩

/-! ## Modal parsing and validation
(`update_meta_modal_submit` src/index.js:1688-1745, `parseOne` src/index.js:1876-1920) -/

/-- JavaScript `x || d` on an optional string: `none` and `""` both fall back. -/
def jsOr (x : Option String) (d : String) : String :=
  match x with
  | none => d
  | some s => if s = "" then d else s

structure ModalInput where
  /-- checkbox values selected in the parts block -/
  checked : List String
  /-- raw value of the "Other" text input (`none` when absent) -/
  otherRaw : Option String
  /-- raw value of the "Parts Set Aside" text input -/
  setAsideRaw : Option String
  /-- selected fulfillment radio value -/
  fulfillmentSel : Option String
  /-- selected payment radio value -/
  paymentSel : Option String
deriving Repr, DecidableEq

/-- `fulfillmentVal === 'install_pickup' ? 'Install/Pickup' : ... : 'Ship'` -/
def fulfillmentLabelOf (v : String) : String :=
  if v = "install_pickup" then "Install/Pickup"
  else if v = "tbd" then "TBD"
  else "Ship"

/-- the payment label conditional chain, defaulting to `'PIF'` -/
def paymentLabelOf (v : String) : String :=
  if v = "deposit" then "Deposit"
  else if v = "pif_prepaid_install" then "PIF + Pre-Paid Install"
  else if v = "unpaid" then "Unpaid"
  else if v = "unknown" then "Unknown"
  else "PIF"

/-- The Classification extracted from one order's modal state. -/
structure Parsed where
  partsSelected : List String
  otherText : String
  setAsideText : String
  fulfillmentVal : String
  fulfillmentLabel : String
  paymentVal : String
  paymentLabel : String
deriving Repr, DecidableEq

/-- Shared parsing rules of the single and bulk submission handlers
(src/index.js:1693-1730 and 1876-1908): trim the two text inputs, and treat a
checkbox as selected whenever its text is non-empty (rule #1). -/
def parseModal (inp : ModalInput) : Parsed :=
  let otherText := jsTrim (inp.otherRaw.getD "")
  let setAsideText := jsTrim (inp.setAsideRaw.getD "")
  let ps1 := if otherText ≠ "" ∧ ¬ (inp.checked.contains "other" = true)
    then inp.checked ++ ["other"] else inp.checked
  let partsSelected := if setAsideText ≠ "" ∧ ¬ (ps1.contains "set_aside" = true)
    then ps1 ++ ["set_aside"] else ps1
  let fulfillmentVal := jsOr inp.fulfillmentSel "ship"
  let paymentVal := jsOr inp.paymentSel "pif"
  ⟨partsSelected, otherText, setAsideText,
   fulfillmentVal, fulfillmentLabelOf fulfillmentVal,
   paymentVal, paymentLabelOf paymentVal⟩

/-- Field-keyed validation errors of the single-order handler
(src/index.js:1732-1738). -/
def singleErrors (p : Parsed) : List (String × String) :=
  (if p.partsSelected.contains "other" = true ∧ p.otherText = ""
   then [("parts_other_text", "Please provide details for \"Other\".")] else []) ++
  (if p.partsSelected.contains "set_aside" = true ∧ p.setAsideText = ""
   then [("parts_set_aside_text", "Please provide details for \"Parts Set Aside\".")] else [])

/-! ## Selection-to-fields compiler (metafield ops)

A `ReconciliationOp` is one planned mutation: `upsertOrderMetafield`
(src/index.js:965-995) or `deleteOrderMetafield` (src/index.js:998-1004). -/

inductive MfOp where
  | upsert (ns key value : String) (typeHint : Option String)
  | delete (ns key : String)
deriving Repr, DecidableEq

/-- `const yesNo = (on, yes, no) => (on ? yes : no)` -/
def yesNo (b : Bool) (yes no : String) : String :=
  if b then yes else no

/-- suppliers CSV derived from tags with the `PartsSupplier_` prefix
(src/index.js:1801-1806 and 2003-2009). -/
def suppliersCsvOf (tags : List String) : String :=
  String.intercalate ", "
    (((tags.filter (fun t => jsStartsWith t "PartsSupplier_")).map
        (fun t => t.drop ("PartsSupplier_".length))).filter (fun s => s ≠ ""))

/-- `partsListForLine3` (src/index.js:1814-1821): the labels of the selected
parts, with the free-text "Other" detail appended when present. -/
def partsListForLine3 (sw tr pd mp da rl otherOn : Bool) (otherText : String) : List String :=
  (if sw then ["Steering Wheel"] else []) ++
  (if tr then ["Trim"] else []) ++
  (if pd then ["Paddles"] else []) ++
  (if mp then ["Magnetic Paddles"] else []) ++
  (if da then ["DA Module"] else []) ++
  (if rl then ["Return Label"] else []) ++
  (if otherOn ∧ otherText ≠ "" then [otherText] else [])

/-- `packing_slip_notes` assembly (src/index.js:1823-1837): header line of the
uppercased labels joined by an em-dash, blank spacer, parts line (`"<x> only"`
for a single entry), and an optional blank line plus set-aside note. -/
def packingSlipNotes (fulfillmentLabel paymentLabel : String) (parts : List String)
    (setAsideOn : Bool) (setAsideText : String) : String :=
  let line3 := if parts.length = 1 then (parts.headD "") ++ " only"
               else String.intercalate ", " parts
  let line1 := jsToUpper fulfillmentLabel ++ " — " ++ jsToUpper paymentLabel
  let line4 := if setAsideOn ∧ setAsideText ≠ ""
               then "Should Be Set Aside Already: " ++ setAsideText else ""
  String.intercalate "\n" ([line1, "", line3] ++ (if line4 ≠ "" then ["", line4] else []))

/-- The metafield ops of the single-order submission handler
(src/index.js:1768-1843), in emission order. -/
def compileSingleOps (p : Parsed) (tags : List String) : List MfOp :=
  let sw := p.partsSelected.contains "steering_wheel"
  let tr := p.partsSelected.contains "trim"
  let pd := p.partsSelected.contains "paddles"
  let mp := p.partsSelected.contains "magnetic_paddles"
  let da := p.partsSelected.contains "da_module"
  let rl := p.partsSelected.contains "return_label"
  let otherOn := p.partsSelected.contains "other"
  let setAsideOn := p.partsSelected.contains "set_aside"
  let scsv := suppliersCsvOf tags
  let notes := packingSlipNotes p.fulfillmentLabel p.paymentLabel
    (partsListForLine3 sw tr pd mp da rl otherOn p.otherText) setAsideOn p.setAsideText
  [ .upsert "custom" "parts_steering_wheel" (yesNo sw "Steering Wheel" "No Steering Wheel") none,
    .upsert "custom" "parts_trim" (yesNo tr "Trim" "No Trim") none,
    .upsert "custom" "parts_paddles" (yesNo pd "Paddles" "No Paddles") none,
    .upsert "custom" "parts_magnetic_paddles" (yesNo mp "Magnetic Paddles" "No Magnetic Paddles") none,
    .upsert "custom" "parts_da_module" (yesNo da "DA Module" "No DA Module") none,
    .upsert "custom" "parts_return_label" (yesNo rl "Return Label" "No Return Label") none ] ++
  (if otherOn = true ∧ jsTrim p.otherText ≠ ""
   then [.upsert "custom" "parts_other" (jsTrim p.otherText) none]
   else [.delete "custom" "parts_other"]) ++
  (if setAsideOn = true ∧ jsTrim p.setAsideText ≠ ""
   then [.upsert "custom" "parts_set_aside_already" (jsTrim p.setAsideText) none]
   else [.delete "custom" "parts_set_aside_already"]) ++
  [ .upsert "custom" "ship_install_pickup" p.fulfillmentLabel none,
    .upsert "custom" "pif_or_not" p.paymentLabel none,
    .upsert "custom" "who_contacts" "Nick" none ] ++
  (if scsv ≠ ""
   then [.upsert "custom" "parts_suppliers" scsv none]
   else [.delete "custom" "parts_suppliers"]) ++
  [ .upsert "custom" "packing_slip_notes" notes (some "multi_line_text_field"),
    .upsert "custom" "initial_slack_tagging_done" "Yes" none ]

/-- Apply one op to a record's field map, mirroring the list-then-act pattern
of `upsertOrderMetafield` / `deleteOrderMetafield`: update the value when the
(namespace, key) exists, otherwise create; delete only when present. -/
def applyOp (m : MfMap) : MfOp → MfMap
  | .upsert ns key v _ =>
    let k := ns ++ "." ++ key
    if (m.find? (fun p => p.1 == k)).isSome
    then m.map (fun p => if p.1 == k then (p.1, v) else p)
    else m ++ [(k, v)]
  | .delete ns key =>
    let k := ns ++ "." ++ key
    m.filter (fun p => p.1 != k)

def applyOps (m : MfMap) (ops : List MfOp) : MfMap :=
  ops.foldl applyOp m

/-! ## Bulk submission: per-order compiled ops (src/index.js:1933-2064) -/

/-- The legacy `nc_incoming` variant keys (src/index.js:1989-1992): every
existing `custom.*` key whose composite name contains `nc_incoming`, reduced
to its key part, minus the canonical `nc_incoming` itself. -/
def incomingVariantKeys (m : MfMap) : List String :=
  (((m.map (fun p => p.1)).filter
      (fun k => jsStartsWith k "custom." && jsIncludes k "nc_incoming")).map
    (fun k => (jsSplit k '.').getD 1 "")).filter (fun k => k ≠ "nc_incoming")

/-- The arrange-narrowing ops (src/index.js:1950-1984) and whether the
`ArrangeStatus_Arranged` tag is to be removed afterwards. -/
def arrangeOps (m : MfMap) (invoiceSupplier : String) : List MfOp × Bool :=
  let currentArrangedWith := (mfv m "custom._nc_arranged_with")
  if currentArrangedWith ≠ "" then
    if jsContainsChar currentArrangedWith '&' then
      let parts := ((jsSplit currentArrangedWith '&').map jsTrim).filter (fun s => s ≠ "")
      let supplierToRemove := jsTrim invoiceSupplier
      let filtered := parts.filter (fun s => s ≠ supplierToRemove)
      let newValue := String.intercalate " & " filtered
      (if newValue ≠ "" ∧ newValue ≠ currentArrangedWith
       then [.upsert "custom" "_nc_arranged_with" newValue none] else [], false)
    else
      ([.delete "custom" "arrange_status", .delete "custom" "_nc_arranged_with"], true)
  else
    ([], false)

/-- Remote context a bulk order's compilation reads: the order's existing
metafield map and tags, and the invoice metadata from the modal. -/
structure BulkContext where
  mfMap : MfMap
  tags : List String
  invoiceSupplier : String
  invoiceDate : String
deriving Repr, DecidableEq

/-- The full metafield op list the bulk worker pushes for one order
(src/index.js:1935-2064), in emission order. -/
def compileBulkOps (p : Parsed) (ctx : BulkContext) : List MfOp :=
  let sw := p.partsSelected.contains "steering_wheel"
  let tr := p.partsSelected.contains "trim"
  let pd := p.partsSelected.contains "paddles"
  let mp := p.partsSelected.contains "magnetic_paddles"
  let da := p.partsSelected.contains "da_module"
  let rl := p.partsSelected.contains "return_label"
  let otherOn := p.partsSelected.contains "other"
  let setAsideOn := p.partsSelected.contains "set_aside"
  let currentBackEnd := mfv ctx.mfMap "custom._back_end_incoming_invoice"
  let appendLabel := jsTrim (jsTrim ctx.invoiceSupplier ++ " " ++ jsTrim ctx.invoiceDate ++ " Invoice")
  let newBackEnd := if currentBackEnd ≠ "" then currentBackEnd ++ "; " ++ appendLabel else appendLabel
  let scsv := suppliersCsvOf ctx.tags
  let notes := packingSlipNotes p.fulfillmentLabel p.paymentLabel
    (partsListForLine3 sw tr pd mp da rl otherOn p.otherText) setAsideOn p.setAsideText
  (arrangeOps ctx.mfMap ctx.invoiceSupplier).1 ++
  [.upsert "custom" "nc_incoming" "INCOMING" none] ++
  (incomingVariantKeys ctx.mfMap).map (fun k => .upsert "custom" k "INCOMING" none) ++
  [.upsert "custom" "_back_end_incoming_invoice" newBackEnd none] ++
  [ .upsert "custom" "parts_steering_wheel" (yesNo sw "Steering Wheel" "No Steering Wheel") none,
    .upsert "custom" "parts_trim" (yesNo tr "Trim" "No Trim") none,
    .upsert "custom" "parts_paddles" (yesNo pd "Paddles" "No Paddles") none,
    .upsert "custom" "parts_magnetic_paddles" (yesNo mp "Magnetic Paddles" "No Magnetic Paddles") none,
    .upsert "custom" "parts_da_module" (yesNo da "DA Module" "No DA Module") none,
    .upsert "custom" "parts_return_label" (yesNo rl "Return Label" "No Return Label") none,
    .upsert "custom" "ship_install_pickup" p.fulfillmentLabel none,
    .upsert "custom" "pif_or_not" p.paymentLabel none,
    .upsert "custom" "who_contacts" "Nick" none,
    .upsert "custom" "packing_slip_notes" notes (some "multi_line_text_field"),
    .upsert "custom" "initial_slack_tagging_done" "Yes" none ] ++
  (if otherOn = true ∧ jsTrim p.otherText ≠ ""
   then [.upsert "custom" "parts_other" (jsTrim p.otherText) none]
   else [.delete "custom" "parts_other"]) ++
  (if setAsideOn = true ∧ jsTrim p.setAsideText ≠ ""
   then [.upsert "custom" "parts_set_aside_already" (jsTrim p.setAsideText) none]
   else [.delete "custom" "parts_set_aside_already"]) ++
  (if scsv ≠ ""
   then [.upsert "custom" "parts_suppliers" scsv none]
   else [.delete "custom" "parts_suppliers"])

/-- The (namespace, key) a planned op targets. -/
def opTarget : MfOp → String × String
  | .upsert ns key _ _ => (ns, key)
  | .delete ns key => (ns, key)

/-! ## Submission handlers: validation before mutation -/

/-- One order of the bulk modal: its digits, its block of modal state, and the
remote fetch results its processing depends on (`fetchOrderMetafields`,
`fetchOrderTags`); a failed lookup is an `Except.error` carrying the thrown
message. -/
structure BulkOrder where
  digits : String
  input : ModalInput
  fetchMf : Except String MfMap
  fetchTags : Except String (List String)

/-- Bulk validation loop (src/index.js:1911-1920): field-keyed messages
accumulated over all orders before anything else runs. -/
def bulkErrors (orders : List BulkOrder) : List (String × String) :=
  orders.foldl
    (fun acc o =>
      let p := parseModal o.input
      let needsOther := p.partsSelected.contains "other" = true ∧ p.otherText = ""
      let needsSetAside := p.partsSelected.contains "set_aside" = true ∧ p.setAsideText = ""
      acc ++
      (if needsOther
       then [("parts_other_text_" ++ o.digits, "Please provide details for \"Other\".")] else []) ++
      (if needsSetAside
       then [("parts_set_aside_text_" ++ o.digits, "Please provide details for \"Parts Set Aside\".")] else []))
    []

/-- The per-order body of the bulk worker up to and including the computation
of its metafield ops (src/index.js:1934-2064): the metafield lookup and the
tag fetch may fail, and a failure escapes to the worker's catch. -/
def processBulkOrder (invoiceSupplier invoiceDate : String) (o : BulkOrder) :
    Except String (List MfOp) := do
  let mfMap ← o.fetchMf
  let tags ← o.fetchTags
  pure (compileBulkOps (parseModal o.input)
    ⟨mfMap, tags, invoiceSupplier, invoiceDate⟩)

/-- Per-order outcome: `{ ok, id }` on success, `{ ok: false, id, error }` on
failure (src/index.js:2116-2121). -/
structure BatchResult where
  ok : Bool
  id : String
  error : Option String
deriving Repr, DecidableEq

/-- The bulk worker's per-record boundary: the whole body is wrapped in
`try/catch`, converting an exception into a failed result carrying its
message. -/
def bulkWorker (invoiceSupplier invoiceDate : String) (o : BulkOrder) : BatchResult :=
  match processBulkOrder invoiceSupplier invoiceDate o with
  | .ok _ => ⟨true, o.digits, none⟩
  | .error e => ⟨false, o.digits, some e⟩

/-- A submission either responds with validation errors or proceeds. -/
inductive SubmitOutcome (α : Type) where
  | validationErrors (errors : List (String × String))
  | proceeded (a : α)
deriving Repr, DecidableEq

/-- Single-order handler control flow (src/index.js:1732-1745): on any
validation error, `ack` the field-keyed errors and return; only otherwise
proceed to the metafield ops. -/
def singleSubmit (inp : ModalInput) (tags : List String) : SubmitOutcome (List MfOp) :=
  let p := parseModal inp
  if singleErrors p ≠ [] then .validationErrors (singleErrors p)
  else .proceeded (compileSingleOps p tags)

/-- Remote mutations attempted by the single-order handler. -/
def singleRemoteOps (inp : ModalInput) (tags : List String) : List MfOp :=
  match singleSubmit inp tags with
  | .validationErrors _ => []
  | .proceeded ops => ops

/-- Bulk handler control flow (src/index.js:1911-1927): validate all orders
first; on any error, `ack` the errors and return before the runner starts. -/
def bulkSubmit (invoiceSupplier invoiceDate : String) (orders : List BulkOrder) :
    SubmitOutcome (List BatchResult) :=
  if bulkErrors orders ≠ [] then .validationErrors (bulkErrors orders)
  else .proceeded (orders.map (bulkWorker invoiceSupplier invoiceDate))

/-- Remote mutations attempted by the bulk handler across all orders. -/
def bulkRemoteOps (invoiceSupplier invoiceDate : String) (orders : List BulkOrder) : List MfOp :=
  match bulkSubmit invoiceSupplier invoiceDate orders with
  | .validationErrors _ => []
  | .proceeded _ =>
    orders.flatMap (fun o =>
      match processBulkOrder invoiceSupplier invoiceDate o with
      | .ok ops => ops
      | .error _ => [])

/-! ## Batch runner (`runWithConcurrency`, src/index.js:878-897)

Workers claim strictly increasing indices (`const idx = i++`) and each writes
its outcome to `results[idx]`; only the order in which the claimed slots are
written varies with scheduling.  An execution is the sequence of slot writes,
folded over the result array. -/

def runExec (f : Nat → α → β) (items : List α) (sched : List Nat) : List (Option β) :=
  sched.foldl
    (fun res idx =>
      match items[idx]? with
      | some a => res.set idx (some (f idx a))
      | none => res)
    (List.replicate items.length none)

/-! ## Helper lemmas -/

lemma statusOk_eq_false_of_retryable (s : Nat) (h : statusRetryable s = true) :
    statusOk s = false := by
  unfold statusRetryable at h
  unfold statusOk
  simp only [Bool.or_eq_true, beq_iff_eq, Bool.and_eq_true, decide_eq_true_eq] at h
  simp only [Bool.and_eq_false_iff, decide_eq_false_iff_not]
  omega

lemma runThrottled_length (g : Nat) (cs : List GatedCall) :
    (runThrottled g cs).length = cs.length := by
  induction cs generalizing g with
  | nil => rfl
  | cons c cs ih => simp [runThrottled, ih]

lemma withShopifyThrottle_start_ge (g : Nat) (c : GatedCall) :
    g ≤ (withShopifyThrottle g c).start := by
  simp [withShopifyThrottle]

lemma withShopifyThrottle_finish_ge (g : Nat) (c : GatedCall) :
    (withShopifyThrottle g c).start ≤ (withShopifyThrottle g c).finish := by
  simp [withShopifyThrottle]

lemma runThrottled_chain (g : Nat) (cs : List GatedCall) :
    List.Chain' (fun a b => a.finish + SHOPIFY_MIN_GAP_MS ≤ b.start ∧ b.start ≤ b.finish)
      (runThrottled g cs) := by
  induction cs generalizing g with
  | nil => exact List.chain'_nil
  | cons c cs ih =>
    rw [runThrottled]
    apply List.Chain'.cons'
    · exact ih _
    · intro b hb
      rcases cs with _ | ⟨c2, cs2⟩
      · simp [runThrottled] at hb
      · rw [runThrottled] at hb
        simp only [List.head?_cons, Option.mem_def, Option.some.injEq] at hb
        subst hb
        constructor
        · calc (withShopifyThrottle g c).finish + SHOPIFY_MIN_GAP_MS
              = (withShopifyThrottle g c).releaseAt := rfl
          _ ≤ _ := withShopifyThrottle_start_ge _ _
        · exact withShopifyThrottle_finish_ge _ _

lemma chain_finish_accum (l : List GateRun)
    (hch : List.Chain' (fun a b => a.finish + SHOPIFY_MIN_GAP_MS ≤ b.start ∧ b.start ≤ b.finish) l) :
    ∀ i j (hij : i ≤ j) (hj : j < l.length),
      (l.get ⟨i, lt_of_le_of_lt hij hj⟩).finish + (j - i) * SHOPIFY_MIN_GAP_MS
        ≤ (l.get ⟨j, hj⟩).finish := by
  intro i j hij hj
  induction j, hij using Nat.le_induction with
  | base => simp
  | succ j hij ih =>
    have hj' : j < l.length := by omega
    have hstep := (List.chain'_iff_get.mp hch) j (by omega)
    have h1 := hstep.1
    have h2 := hstep.2
    have ihj := ih hj'
    have hgap : SHOPIFY_MIN_GAP_MS = 400 := rfl
    rw [hgap] at h1 ihj ⊢
    omega

/-! ## Claim theorems -/

/-- **C1.** Retry policy of `shopifyFetch`: a 429/5xx response is retried while
the attempt counter is within the cap of 5, sleeping the server-supplied
`Retry-After` (seconds × 1000) when present and `min(2000·attempt, 10000)`
otherwise; with every response retryable, the attempt exceeding the cap
surfaces the last response as a fatal `TransportError` carrying its status,
status text and body, after 6 requests (the initial attempt plus the 5 capped
retries) and 5 backoff sleeps; and a 429 carrying `Retry-After: 2` followed by
a 200 completes successfully with exactly 2 requests after a single 2000 ms
sleep. -/
theorem shopifyFetch_retry_c1 (rs : List HttpResponse)
    (hlen : rs.length = 6)
    (hall : ∀ r ∈ rs, statusRetryable r.status = true) :
    (shopifyFetch rs 1).requests = 6 ∧
    (shopifyFetch rs 1).delays.length = 5 ∧
    (∀ r, rs.getLast? = some r →
      (shopifyFetch rs 1).result =
        some (.error ⟨r.status, r.statusText, r.body⟩)) ∧
    ((∀ r ∈ rs, r.retryAfterSecs = none) →
      (shopifyFetch rs 1).delays = [2000, 4000, 6000, 8000, 10000]) ∧
    (∀ (r : HttpResponse) (rest : List HttpResponse) (attempt : Nat),
      statusRetryable r.status = true → attempt ≤ 5 →
      shopifyFetch (r :: rest) attempt =
        ⟨(shopifyFetch rest (attempt + 1)).result,
         (shopifyFetch rest (attempt + 1)).requests + 1,
         retryDelayMs r attempt :: (shopifyFetch rest (attempt + 1)).delays⟩) ∧
    (∀ (st b st2 b2 : String) (rest : List HttpResponse),
      shopifyFetch (⟨429, st, some 2, b⟩ :: ⟨200, st2, none, b2⟩ :: rest) 1 =
        ⟨some (.ok b2), 2, [2000]⟩) := by
  rcases rs with _ | ⟨a, _ | ⟨b, _ | ⟨c, _ | ⟨d, _ | ⟨e, _ | ⟨f, rest⟩⟩⟩⟩⟩⟩ <;>
    simp only [List.length_cons, List.length_nil] at hlen <;> try omega
  have hrest : rest = [] := List.length_eq_zero.mp (by omega)
  subst hrest
  have ha := hall a (by simp)
  have hb := hall b (by simp)
  have hc := hall c (by simp)
  have hd := hall d (by simp)
  have he := hall e (by simp)
  have hf := hall f (by simp)
  have hfok := statusOk_eq_false_of_retryable f.status hf
  refine ⟨?_, ?_, ?_, ?_, ?_, ?_⟩
  · simp [shopifyFetch, ha, hb, hc, hd, he, hf, hfok]
  · simp [shopifyFetch, ha, hb, hc, hd, he, hf, hfok]
  · intro r hr
    simp only [List.getLast?_cons_cons, List.getLast?_singleton, Option.some.injEq] at hr
    subst hr
    simp [shopifyFetch, ha, hb, hc, hd, he, hf, hfok]
  · intro hnone
    have na := hnone a (by simp)
    have nb := hnone b (by simp)
    have nc := hnone c (by simp)
    have nd := hnone d (by simp)
    have ne' := hnone e (by simp)
    simp [shopifyFetch, ha, hb, hc, hd, he, hf, hfok, retryDelayMs, na, nb, nc, nd, ne']
  · intro r rest attempt hretry hle
    rw [shopifyFetch, if_pos ⟨hretry, hle⟩]
  · intro st bb st2 b2 rest
    simp [shopifyFetch, statusRetryable, statusOk, retryDelayMs]

theorem shopifyFetch_retry_c1_witness :
    (let rs : List HttpResponse :=
      [⟨429, "A", none, "b1"⟩, ⟨500, "B", none, "b2"⟩, ⟨503, "C", none, "b3"⟩,
       ⟨429, "D", none, "b4"⟩, ⟨599, "E", none, "b5"⟩, ⟨429, "F", none, "bodyF"⟩];
     (shopifyFetch rs 1).requests = 6 ∧
     (shopifyFetch rs 1).delays.length = 5 ∧
     (∀ r, rs.getLast? = some r →
       (shopifyFetch rs 1).result = some (.error ⟨r.status, r.statusText, r.body⟩)) ∧
     ((∀ r ∈ rs, r.retryAfterSecs = none) →
       (shopifyFetch rs 1).delays = [2000, 4000, 6000, 8000, 10000]) ∧
     (∀ (r : HttpResponse) (rest : List HttpResponse) (attempt : Nat),
       statusRetryable r.status = true → attempt ≤ 5 →
       shopifyFetch (r :: rest) attempt =
         ⟨(shopifyFetch rest (attempt + 1)).result,
          (shopifyFetch rest (attempt + 1)).requests + 1,
          retryDelayMs r attempt :: (shopifyFetch rest (attempt + 1)).delays⟩) ∧
     (∀ (st b st2 b2 : String) (rest : List HttpResponse),
       shopifyFetch (⟨429, st, some 2, b⟩ :: ⟨200, st2, none, b2⟩ :: rest) 1 =
         ⟨some (.ok b2), 2, [2000]⟩)) :=
  shopifyFetch_retry_c1 _ (by decide) (by decide)

/-- **C2.** The global throttle gate serializes all remote calls: each call
starts no earlier than the previous call's finish plus the fixed
`__SHOPIFY_MIN_GAP_MS` (400 ms) gap, so the finish times of any two calls `i ≤ j`
in a gated sequence are at least `(j - i) × minGap` apart — in particular N
consecutive calls complete no faster than `(N-1) × minGap` apart — and the gap
is charged identically whether the wrapped call resolves or rejects. -/
theorem throttle_gap_c2 (g : Nat) (cs : List GatedCall) (i j : Nat)
    (hij : i ≤ j) (hj : j < (runThrottled g cs).length) :
    ((runThrottled g cs).get ⟨i, lt_of_le_of_lt hij hj⟩).finish + (j - i) * SHOPIFY_MIN_GAP_MS
      ≤ ((runThrottled g cs).get ⟨j, hj⟩).finish ∧
    (runThrottled g cs).length = cs.length ∧
    (∀ k (hk : k + 1 < (runThrottled g cs).length),
      ((runThrottled g cs).get ⟨k, by omega⟩).finish + SHOPIFY_MIN_GAP_MS
        ≤ ((runThrottled g cs).get ⟨k + 1, hk⟩).start) ∧
    (∀ (g2 : Nat) (c : GatedCall) (b : Bool),
      withShopifyThrottle g2 { c with ok := b } = withShopifyThrottle g2 c ∧
      (withShopifyThrottle g2 c).releaseAt
        = (withShopifyThrottle g2 c).finish + SHOPIFY_MIN_GAP_MS) := by
  refine ⟨?_, runThrottled_length g cs, ?_, ?_⟩
  · exact chain_finish_accum _ (runThrottled_chain g cs) i j hij hj
  · intro k hk
    exact ((List.chain'_iff_get.mp (runThrottled_chain g cs)) k (by omega)).1
  · intro g2 c b
    exact ⟨rfl, rfl⟩

theorem throttle_gap_c2_witness :
    (let cs : List GatedCall := [⟨0, 100, true⟩, ⟨0, 50, false⟩, ⟨0, 10, true⟩];
     ((runThrottled 0 cs).get ⟨0, by decide⟩).finish + (2 - 0) * SHOPIFY_MIN_GAP_MS
       ≤ ((runThrottled 0 cs).get ⟨2, by decide⟩).finish ∧
     (runThrottled 0 cs).length = cs.length) :=
  ⟨(throttle_gap_c2 0 _ 0 2 (by decide) (by decide)).1,
   (throttle_gap_c2 0 _ 0 2 (by decide) (by decide)).2.1⟩

/-- **C7.** Whenever the completion marker `custom.initial_slack_tagging_done`
is absent, blank, or anything other than `yes` case-insensitively, the
initial-state extractor returns the fixed default Classification —
steering-wheel as the only pre-checked part, fulfillment `ship`, payment
`pif`, empty annotation texts — regardless of every other field in the map. -/
theorem buildInitials_default_c7 (m : MfMap)
    (h : jsToLower (mfv m "custom.initial_slack_tagging_done") ≠ "yes") :
    buildInitialsFromMetafields m =
      ⟨false, ["steering_wheel"], "ship", "pif", "", ""⟩ := by
  unfold buildInitialsFromMetafields
  rw [if_neg h]
  simp [h]

theorem buildInitials_default_c7_witness :
    jsToLower (mfv [("custom.initial_slack_tagging_done", "No"),
          ("custom.parts_trim", "Trim"),
          ("custom.ship_install_pickup", "TBD"),
          ("custom.pif_or_not", "Unpaid"),
          ("custom.parts_other", "stray")] "custom.initial_slack_tagging_done") ≠ "yes" ∧
    buildInitialsFromMetafields
      [("custom.initial_slack_tagging_done", "No"),
       ("custom.parts_trim", "Trim"),
       ("custom.ship_install_pickup", "TBD"),
       ("custom.pif_or_not", "Unpaid"),
       ("custom.parts_other", "stray")] =
      ⟨false, ["steering_wheel"], "ship", "pif", "", ""⟩ :=
  ⟨by decide, buildInitials_default_c7 _ (by decide)⟩

/-- **C10.** With the completion marker equal to `yes`, a blank fulfillment
field yields `ship` while a blank payment field yields `unknown` (not the
`pif` default used when the marker is absent), and an unrecognized non-blank
value in either field leaves the initial defaults `ship` / `pif` in place. -/
theorem buildInitials_blank_asym_c10 (m : MfMap)
    (hyes : jsToLower (mfv m "custom.initial_slack_tagging_done") = "yes") :
    (mfv m "custom.ship_install_pickup" = "" →
      (buildInitialsFromMetafields m).fulfillment = "ship") ∧
    (mfv m "custom.pif_or_not" = "" →
      (buildInitialsFromMetafields m).payment = "unknown") ∧
    (mfv m "custom.ship_install_pickup" ∉ (["Ship", "Install/Pickup", "TBD", ""] : List String) →
      (buildInitialsFromMetafields m).fulfillment = "ship") ∧
    (mfv m "custom.pif_or_not" ∉
        (["PIF", "Deposit", "PIF + Pre-Paid Install", "Unpaid", "Unknown", ""] : List String) →
      (buildInitialsFromMetafields m).payment = "pif") := by
  unfold buildInitialsFromMetafields
  simp only [if_pos hyes, List.mem_cons, List.not_mem_nil, or_false, not_or]
  refine ⟨?_, ?_, ?_, ?_⟩
  · intro hblank
    simp [hblank]
  · intro hblank
    simp [hblank]
  · intro hne
    obtain ⟨h1, h2, h3, h4⟩ := hne
    simp [h1, h2, h3, h4]
  · intro hne
    obtain ⟨h1, h2, h3, h4, h5, h6⟩ := hne
    simp [h1, h2, h3, h4, h5, h6]

theorem buildInitials_blank_asym_c10_witness :
    jsToLower (mfv [("custom.initial_slack_tagging_done", "Yes"),
          ("custom.ship_install_pickup", ""),
          ("custom.pif_or_not", "")] "custom.initial_slack_tagging_done") = "yes" ∧
    (buildInitialsFromMetafields
      [("custom.initial_slack_tagging_done", "Yes"),
       ("custom.ship_install_pickup", ""),
       ("custom.pif_or_not", "")]).fulfillment = "ship" ∧
    (buildInitialsFromMetafields
      [("custom.initial_slack_tagging_done", "Yes"),
       ("custom.ship_install_pickup", ""),
       ("custom.pif_or_not", "")]).payment = "unknown" ∧
    (buildInitialsFromMetafields
      [("custom.initial_slack_tagging_done", "Yes"),
       ("custom.ship_install_pickup", "Courier"),
       ("custom.pif_or_not", "Later")]).fulfillment = "ship" ∧
    (buildInitialsFromMetafields
      [("custom.initial_slack_tagging_done", "Yes"),
       ("custom.ship_install_pickup", "Courier"),
       ("custom.pif_or_not", "Later")]).payment = "pif" :=
  ⟨by decide,
   (buildInitials_blank_asym_c10 _ (by decide)).1 (by decide),
   (buildInitials_blank_asym_c10 _ (by decide)).2.1 (by decide),
   (buildInitials_blank_asym_c10 _ (by decide)).2.2.1 (by decide),
   (buildInitials_blank_asym_c10 _ (by decide)).2.2.2 (by decide)⟩

/-- The validation entries one bulk order contributes. -/
def orderErrors (o : BulkOrder) : List (String × String) :=
  let p := parseModal o.input
  (if p.partsSelected.contains "other" = true ∧ p.otherText = ""
   then [("parts_other_text_" ++ o.digits, "Please provide details for \"Other\".")] else []) ++
  (if p.partsSelected.contains "set_aside" = true ∧ p.setAsideText = ""
   then [("parts_set_aside_text_" ++ o.digits, "Please provide details for \"Parts Set Aside\".")] else [])

lemma bulkErrors_foldl (orders : List BulkOrder) (acc : List (String × String)) :
    orders.foldl
      (fun acc o =>
        let p := parseModal o.input
        let needsOther := p.partsSelected.contains "other" = true ∧ p.otherText = ""
        let needsSetAside := p.partsSelected.contains "set_aside" = true ∧ p.setAsideText = ""
        acc ++
        (if needsOther
         then [("parts_other_text_" ++ o.digits, "Please provide details for \"Other\".")] else []) ++
        (if needsSetAside
         then [("parts_set_aside_text_" ++ o.digits, "Please provide details for \"Parts Set Aside\".")] else []))
      acc = acc ++ orders.flatMap orderErrors := by
  induction orders generalizing acc with
  | nil => simp
  | cons o os ih =>
    rw [List.foldl_cons, ih]
    simp only [List.flatMap_cons, orderErrors, List.append_assoc]

lemma bulkErrors_eq (orders : List BulkOrder) :
    bulkErrors orders = orders.flatMap orderErrors := by
  unfold bulkErrors
  simpa using bulkErrors_foldl orders []

/-- **C4.** Validation precedes mutation: when any record of a submission has
the `other` or `set-aside` flag selected with a blank (trimmed) annotation,
the handler responds with field-keyed error messages that identify exactly the
invalid inputs, and returns before the batch runner starts — no remote
mutation is attempted for any record; the single-order handler likewise
returns its field-keyed errors with zero remote mutations. -/
theorem validation_before_mutation_c4
    (invS invD : String) (orders : List BulkOrder) (o : BulkOrder)
    (ho : o ∈ orders)
    (hbad : ((parseModal o.input).partsSelected.contains "other" = true ∧
              (parseModal o.input).otherText = "") ∨
            ((parseModal o.input).partsSelected.contains "set_aside" = true ∧
              (parseModal o.input).setAsideText = "")) :
    bulkErrors orders ≠ [] ∧
    bulkSubmit invS invD orders = .validationErrors (bulkErrors orders) ∧
    bulkRemoteOps invS invD orders = [] ∧
    (∀ k msg, (k, msg) ∈ bulkErrors orders ↔
      ((∃ o2 ∈ orders, (parseModal o2.input).partsSelected.contains "other" = true ∧
          (parseModal o2.input).otherText = "" ∧
          k = "parts_other_text_" ++ o2.digits ∧
          msg = "Please provide details for \"Other\".") ∨
       (∃ o2 ∈ orders, (parseModal o2.input).partsSelected.contains "set_aside" = true ∧
          (parseModal o2.input).setAsideText = "" ∧
          k = "parts_set_aside_text_" ++ o2.digits ∧
          msg = "Please provide details for \"Parts Set Aside\"."))) ∧
    (∀ (inp : ModalInput) (tags : List String),
      singleErrors (parseModal inp) ≠ [] →
      singleSubmit inp tags = .validationErrors (singleErrors (parseModal inp)) ∧
      singleRemoteOps inp tags = []) := by
  have hne : bulkErrors orders ≠ [] := by
    rw [bulkErrors_eq]
    intro hnil
    have h0 : orderErrors o = [] := List.flatMap_eq_nil_iff.mp hnil o ho
    unfold orderErrors at h0
    rcases hbad with ⟨h1, h2⟩ | ⟨h1, h2⟩ <;> simp [h2] at h0 h1
    · exact h0.1 h1
    · exact h0.2 h1
  refine ⟨hne, ?_, ?_, ?_, ?_⟩
  · unfold bulkSubmit
    rw [if_pos hne]
  · unfold bulkRemoteOps bulkSubmit
    rw [if_pos hne]
  · intro k msg
    rw [bulkErrors_eq]
    simp only [List.mem_flatMap, orderErrors]
    constructor
    · rintro ⟨o2, ho2, hmem⟩
      rcases (List.mem_append.mp hmem) with hmem | hmem
      · left
        refine ⟨o2, ho2, ?_⟩
        by_cases hc : (parseModal o2.input).partsSelected.contains "other" = true ∧
            (parseModal o2.input).otherText = ""
        · rw [if_pos hc] at hmem
          simp at hmem
          exact ⟨hc.1, hc.2, hmem.1, hmem.2⟩
        · rw [if_neg hc] at hmem
          simp at hmem
      · right
        refine ⟨o2, ho2, ?_⟩
        by_cases hc : (parseModal o2.input).partsSelected.contains "set_aside" = true ∧
            (parseModal o2.input).setAsideText = ""
        · rw [if_pos hc] at hmem
          simp at hmem
          exact ⟨hc.1, hc.2, hmem.1, hmem.2⟩
        · rw [if_neg hc] at hmem
          simp at hmem
    · rintro (⟨o2, ho2, h1, h2, hk, hm⟩ | ⟨o2, ho2, h1, h2, hk, hm⟩)
      · have h1m : "other" ∈ (parseModal o2.input).partsSelected := by simpa using h1
        exact ⟨o2, ho2, List.mem_append_left _ (by simp [h1m, h2, hk, hm])⟩
      · have h1m : "set_aside" ∈ (parseModal o2.input).partsSelected := by simpa using h1
        exact ⟨o2, ho2, List.mem_append_right _ (by simp [h1m, h2, hk, hm])⟩
  · intro inp tags hne2
    constructor
    · unfold singleSubmit
      rw [if_pos hne2]
    · unfold singleRemoteOps singleSubmit
      rw [if_pos hne2]

theorem validation_before_mutation_c4_witness :
    bulkErrors [(⟨"1001", ⟨["other", "trim"], none, none, none, none⟩, .ok [], .ok []⟩ : BulkOrder)] ≠ [] ∧
    bulkRemoteOps "Acme" "Oct"
      [⟨"1001", ⟨["other", "trim"], none, none, none, none⟩, .ok [], .ok []⟩] = [] :=
  ⟨(validation_before_mutation_c4 "Acme" "Oct"
      [⟨"1001", ⟨["other", "trim"], none, none, none, none⟩, .ok [], .ok []⟩]
      ⟨"1001", ⟨["other", "trim"], none, none, none, none⟩, .ok [], .ok []⟩
      (List.mem_singleton.mpr rfl) (Or.inl ⟨by decide, by decide⟩)).1,
   (validation_before_mutation_c4 "Acme" "Oct"
      [⟨"1001", ⟨["other", "trim"], none, none, none, none⟩, .ok [], .ok []⟩]
      ⟨"1001", ⟨["other", "trim"], none, none, none, none⟩, .ok [], .ok []⟩
      (List.mem_singleton.mpr rfl) (Or.inl ⟨by decide, by decide⟩)).2.2.1⟩

lemma runExec_go_length (f : Nat → α → β) (items : List α) (sched : List Nat)
    (res : List (Option β)) :
    (sched.foldl
      (fun res idx =>
        match items[idx]? with
        | some a => res.set idx (some (f idx a))
        | none => res) res).length = res.length := by
  induction sched generalizing res with
  | nil => rfl
  | cons j rest ih =>
    rw [List.foldl_cons]
    cases hj : items[j]? with
    | none =>
      simp only [hj]
      exact ih res
    | some a =>
      simp only [hj]
      rw [ih (res.set j (some (f j a)))]
      simp

lemma runExec_go_get (f : Nat → α → β) (items : List α) (sched : List Nat)
    (res : List (Option β)) (hlen : res.length = items.length)
    (i : Nat) (h : i < items.length)
    (hi : i ∈ sched ∨ res[i]? = some (some (f i (items.get ⟨i, h⟩)))) :
    (sched.foldl
      (fun res idx =>
        match items[idx]? with
        | some a => res.set idx (some (f idx a))
        | none => res) res)[i]? = some (some (f i (items.get ⟨i, h⟩))) := by
  induction sched generalizing res with
  | nil =>
    rcases hi with hi | hi
    · simp at hi
    · simpa using hi
  | cons j rest ih =>
    rw [List.foldl_cons]
    by_cases hij : i = j
    · subst hij
      have hsome : items[i]? = some (items.get ⟨i, h⟩) := by simp [h]
      simp only [hsome]
      apply ih
      · simp [hlen]
      · right
        apply List.getElem?_set_eq_of_lt
        omega
    · cases hj : items[j]? with
      | none =>
        simp only [hj]
        apply ih _ hlen
        rcases hi with hi | hi
        · rcases List.mem_cons.mp hi with hi | hi
          · exact absurd hi hij
          · exact Or.inl hi
        · exact Or.inr hi
      | some a =>
        simp only [hj]
        apply ih
        · simp [hlen]
        · rcases hi with hi | hi
          · rcases List.mem_cons.mp hi with hi | hi
            · exact absurd hi hij
            · exact Or.inl hi
          · right
            rw [List.getElem?_set_ne (fun hh => hij hh.symm)]
            exact hi

/-- **C9.** The batch runner's result list lines up with its input: whatever
order the claimed slots complete in (any schedule that eventually processes
every index), the results array has exactly one entry per input record and the
entry at position `i` is the worker's outcome on input record `i`, so the
caller can zip results back to inputs by index. -/
theorem runner_order_c9 (f : Nat → α → β) (items : List α) (sched : List Nat)
    (hcov : ∀ i, i < items.length → i ∈ sched) :
    (runExec f items sched).length = items.length ∧
    ∀ i (h : i < items.length),
      (runExec f items sched)[i]? = some (some (f i (items.get ⟨i, h⟩))) := by
  constructor
  · simpa [runExec] using runExec_go_length f items sched (List.replicate items.length none)
  · intro i h
    exact runExec_go_get f items sched (List.replicate items.length none)
      (by simp) i h (Or.inl (hcov i h))

theorem runner_order_c9_witness :
    (runExec (fun i n => n + i) [10, 20, 30] [2, 0, 1]).length = 3 ∧
    (runExec (fun i n => n + i) [10, 20, 30] [2, 0, 1])[0]? = some (some 10) ∧
    (runExec (fun i n => n + i) [10, 20, 30] [2, 0, 1])[1]? = some (some 21) ∧
    (runExec (fun i n => n + i) [10, 20, 30] [2, 0, 1])[2]? = some (some 32) :=
  ⟨(runner_order_c9 (fun i n => n + i) [10, 20, 30] [2, 0, 1] (by decide)).1,
   (runner_order_c9 (fun i n => n + i) [10, 20, 30] [2, 0, 1] (by decide)).2 0 (by decide),
   (runner_order_c9 (fun i n => n + i) [10, 20, 30] [2, 0, 1] (by decide)).2 1 (by decide),
   (runner_order_c9 (fun i n => n + i) [10, 20, 30] [2, 0, 1] (by decide)).2 2 (by decide)⟩

/-- **C5.** Failure isolation: an exception while processing one record is
caught at that record's boundary and recorded as a failed result carrying the
exception's message, and the remaining records are still processed — with 3
records where record 2's metafield lookup throws, the runner returns 3
results, record 2 failed with the thrown message and records 1 and 3
succeeded; in general a record whose lookup throws yields a failed result at
its own index only. -/
theorem batch_isolation_c5 (invS invD : String) (o1 o2 o3 : BulkOrder) (m : String)
    (h1 : ∃ x, processBulkOrder invS invD o1 = .ok x)
    (h2 : o2.fetchMf = .error m)
    (h3 : ∃ x, processBulkOrder invS invD o3 = .ok x) :
    runExec (fun _ o => bulkWorker invS invD o) [o1, o2, o3] (List.range 3) =
      [some ⟨true, o1.digits, none⟩, some ⟨false, o2.digits, some m⟩,
       some ⟨true, o3.digits, none⟩] ∧
    (∀ (orders : List BulkOrder) (i : Nat) (h : i < orders.length) (e : String),
      (orders.get ⟨i, h⟩).fetchMf = .error e →
      (runExec (fun _ o => bulkWorker invS invD o) orders (List.range orders.length))[i]? =
        some (some ⟨false, (orders.get ⟨i, h⟩).digits, some e⟩)) := by
  obtain ⟨x1, hx1⟩ := h1
  obtain ⟨x3, hx3⟩ := h3
  have hp2 : processBulkOrder invS invD o2 = .error m := by
    unfold processBulkOrder
    rw [h2]
    rfl
  have hw2 : bulkWorker invS invD o2 = ⟨false, o2.digits, some m⟩ := by
    unfold bulkWorker
    rw [hp2]
  have hw1 : bulkWorker invS invD o1 = ⟨true, o1.digits, none⟩ := by
    unfold bulkWorker
    rw [hx1]
  have hw3 : bulkWorker invS invD o3 = ⟨true, o3.digits, none⟩ := by
    unfold bulkWorker
    rw [hx3]
  constructor
  · have hr : List.range 3 = [0, 1, 2] := rfl
    rw [hr]
    simp [runExec, hw1, hw2, hw3]
  · intro orders i h e he
    have hpe : processBulkOrder invS invD (orders.get ⟨i, h⟩) = .error e := by
      unfold processBulkOrder
      rw [he]
      rfl
    have hw : bulkWorker invS invD (orders.get ⟨i, h⟩) =
        ⟨false, (orders.get ⟨i, h⟩).digits, some e⟩ := by
      unfold bulkWorker
      rw [hpe]
    have := (runner_order_c9 (fun _ o => bulkWorker invS invD o) orders
      (List.range orders.length) (fun i hi => List.mem_range.mpr hi)).2 i h
    rw [this, hw]

theorem batch_isolation_c5_witness :
    runExec
      (fun _ o => bulkWorker "Acme" "Oct" o)
      [⟨"1001", ⟨["steering_wheel"], none, none, none, none⟩, .ok [], .ok []⟩,
       ⟨"1002", ⟨["trim"], none, none, none, none⟩, .error "Order C#1002 not found", .ok []⟩,
       ⟨"1003", ⟨["paddles"], none, none, none, none⟩, .ok [], .ok []⟩]
      (List.range 3) =
      [some ⟨true, "1001", none⟩, some ⟨false, "1002", some "Order C#1002 not found"⟩,
       some ⟨true, "1003", none⟩] :=
  (batch_isolation_c5 "Acme" "Oct"
    ⟨"1001", ⟨["steering_wheel"], none, none, none, none⟩, .ok [], .ok []⟩
    ⟨"1002", ⟨["trim"], none, none, none, none⟩, .error "Order C#1002 not found", .ok []⟩
    ⟨"1003", ⟨["paddles"], none, none, none, none⟩, .ok [], .ok []⟩
    "Order C#1002 not found" ⟨_, rfl⟩ rfl ⟨_, rfl⟩).1

lemma string_data_append (a b : String) : (a ++ b).data = a.data ++ b.data := rfl

lemma intercalate_two (s a b : String) : String.intercalate s [a, b] = a ++ s ++ b := rfl

lemma intercalate_three (s a b c : String) :
    String.intercalate s [a, b, c] = a ++ s ++ b ++ s ++ c := rfl

lemma intercalate_five (s a b c d e : String) :
    String.intercalate s [a, b, c, d, e] = a ++ s ++ b ++ s ++ c ++ s ++ d ++ s ++ e := rfl

lemma string_append_ne_empty_left (a b : String) (ha : a.data ≠ []) : a ++ b ≠ "" := by
  intro h
  have : (a ++ b).data = [] := by rw [h]
  rw [string_data_append] at this
  exact ha (List.append_eq_nil.mp this).1

/-- **C8.** Summary rendering: the multi-line summary is the header line of the
uppercased fulfillment and payment labels joined by an em-dash, a blank line,
and the parts line — `"<Label> only"` for exactly one selected label,
`"<Label1>, <Label2>"` for two — plus, when the set-aside annotation is
present, a further blank line and the set-aside note; both compilers upsert it
as `packing_slip_notes` with the multi-line type hint. -/
theorem summary_render_c8 (p : Parsed) (tags : List String) (ctx : BulkContext) :
    (∀ (fl pl : String) (parts : List String) (sa : Bool) (st : String),
      packingSlipNotes fl pl parts sa st =
        jsToUpper fl ++ " — " ++ jsToUpper pl ++ "\n\n" ++
        (if parts.length = 1 then parts.headD "" ++ " only"
         else String.intercalate ", " parts) ++
        (if sa = true ∧ st ≠ ""
         then "\n\n" ++ ("Should Be Set Aside Already: " ++ st) else "")) ∧
    (∀ (fl pl a : String),
      packingSlipNotes fl pl [a] false "" =
        jsToUpper fl ++ " — " ++ jsToUpper pl ++ "\n\n" ++ a ++ " only") ∧
    (∀ (fl pl a b : String),
      packingSlipNotes fl pl [a, b] false "" =
        jsToUpper fl ++ " — " ++ jsToUpper pl ++ "\n\n" ++ a ++ ", " ++ b) ∧
    (∀ (fl pl a st : String), st ≠ "" →
      packingSlipNotes fl pl [a] true st =
        jsToUpper fl ++ " — " ++ jsToUpper pl ++ "\n\n" ++ a ++ " only" ++ "\n\n" ++
        "Should Be Set Aside Already: " ++ st) ∧
    ((MfOp.upsert "custom" "packing_slip_notes"
        (packingSlipNotes p.fulfillmentLabel p.paymentLabel
          (partsListForLine3 (p.partsSelected.contains "steering_wheel")
            (p.partsSelected.contains "trim") (p.partsSelected.contains "paddles")
            (p.partsSelected.contains "magnetic_paddles") (p.partsSelected.contains "da_module")
            (p.partsSelected.contains "return_label") (p.partsSelected.contains "other")
            p.otherText)
          (p.partsSelected.contains "set_aside") p.setAsideText)
        (some "multi_line_text_field")) ∈ compileSingleOps p tags) ∧
    ((MfOp.upsert "custom" "packing_slip_notes"
        (packingSlipNotes p.fulfillmentLabel p.paymentLabel
          (partsListForLine3 (p.partsSelected.contains "steering_wheel")
            (p.partsSelected.contains "trim") (p.partsSelected.contains "paddles")
            (p.partsSelected.contains "magnetic_paddles") (p.partsSelected.contains "da_module")
            (p.partsSelected.contains "return_label") (p.partsSelected.contains "other")
            p.otherText)
          (p.partsSelected.contains "set_aside") p.setAsideText)
        (some "multi_line_text_field")) ∈ compileBulkOps p ctx) := by
  have hmain : ∀ (fl pl : String) (parts : List String) (sa : Bool) (st : String),
      packingSlipNotes fl pl parts sa st =
        jsToUpper fl ++ " — " ++ jsToUpper pl ++ "\n\n" ++
        (if parts.length = 1 then parts.headD "" ++ " only"
         else String.intercalate ", " parts) ++
        (if sa = true ∧ st ≠ ""
         then "\n\n" ++ ("Should Be Set Aside Already: " ++ st) else "") := by
    intro fl pl parts sa st
    unfold packingSlipNotes
    by_cases hc : sa = true ∧ st ≠ ""
    · have hne : ("Should Be Set Aside Already: " ++ st) ≠ "" :=
        string_append_ne_empty_left "Should Be Set Aside Already: " st (by decide)
      simp only [hc.1, hc.2, ne_eq, not_false_eq_true, and_self, if_true, if_pos hne]
      simp only [List.cons_append, List.nil_append, intercalate_five]
      apply String.ext
      simp [string_data_append, List.append_assoc]
    · rw [if_neg hc]
      simp only [ne_eq, not_true_eq_false, if_false, if_neg hc, List.append_nil]
      rw [intercalate_three]
      apply String.ext
      simp [string_data_append, List.append_assoc]
  refine ⟨hmain, ?_, ?_, ?_, ?_, ?_⟩
  · intro fl pl a
    rw [hmain]
    apply String.ext
    simp [string_data_append, List.append_assoc]
  · intro fl pl a b
    rw [hmain]
    have h2 : ¬ (([a, b] : List String).length = 1) := by simp
    rw [if_neg h2, intercalate_two]
    apply String.ext
    simp [string_data_append, List.append_assoc]
  · intro fl pl a st hst
    rw [hmain, if_pos (show true = true ∧ st ≠ "" from ⟨rfl, hst⟩)]
    apply String.ext
    simp [string_data_append, List.append_assoc]
  · simp [compileSingleOps]
  · simp [compileBulkOps]

theorem summary_render_c8_witness :
    (let p0 := parseModal ⟨["steering_wheel"], none, none, none, none⟩;
     packingSlipNotes "Ship" "PIF" ["Steering Wheel"] false "" =
       jsToUpper "Ship" ++ " — " ++ jsToUpper "PIF" ++ "\n\n" ++ "Steering Wheel" ++ " only" ∧
     packingSlipNotes "TBD" "Deposit" ["Trim", "Paddles"] false "" =
       jsToUpper "TBD" ++ " — " ++ jsToUpper "Deposit" ++ "\n\n" ++ "Trim" ++ ", " ++ "Paddles" ∧
     packingSlipNotes "Ship" "PIF" ["Trim"] true "box 3" =
       jsToUpper "Ship" ++ " — " ++ jsToUpper "PIF" ++ "\n\n" ++ "Trim" ++ " only" ++ "\n\n" ++
         "Should Be Set Aside Already: " ++ "box 3" ∧
     (MfOp.upsert "custom" "packing_slip_notes"
        (packingSlipNotes p0.fulfillmentLabel p0.paymentLabel
          (partsListForLine3 (p0.partsSelected.contains "steering_wheel")
            (p0.partsSelected.contains "trim") (p0.partsSelected.contains "paddles")
            (p0.partsSelected.contains "magnetic_paddles") (p0.partsSelected.contains "da_module")
            (p0.partsSelected.contains "return_label") (p0.partsSelected.contains "other")
            p0.otherText)
          (p0.partsSelected.contains "set_aside") p0.setAsideText)
        (some "multi_line_text_field")) ∈ compileSingleOps p0 []) :=
  ⟨(summary_render_c8 (parseModal ⟨["steering_wheel"], none, none, none, none⟩) []
      ⟨[], [], "", ""⟩).2.1 "Ship" "PIF" "Steering Wheel",
   (summary_render_c8 (parseModal ⟨["steering_wheel"], none, none, none, none⟩) []
      ⟨[], [], "", ""⟩).2.2.1 "TBD" "Deposit" "Trim" "Paddles",
   (summary_render_c8 (parseModal ⟨["steering_wheel"], none, none, none, none⟩) []
      ⟨[], [], "", ""⟩).2.2.2.1 "Ship" "PIF" "Trim" "box 3" (by decide),
   (summary_render_c8 (parseModal ⟨["steering_wheel"], none, none, none, none⟩) []
      ⟨[], [], "", ""⟩).2.2.2.2.1⟩

lemma jsTrim_empty : jsTrim "" = "" := rfl

set_option maxHeartbeats 1000000 in
lemma compileSingle_lookups (p : Parsed) (tags : List String) :
    mfv (applyOps [] (compileSingleOps p tags)) "custom.initial_slack_tagging_done" = jsTrim "Yes" ∧
    mfv (applyOps [] (compileSingleOps p tags)) "custom.parts_steering_wheel" =
      jsTrim (yesNo (p.partsSelected.contains "steering_wheel") "Steering Wheel" "No Steering Wheel") ∧
    mfv (applyOps [] (compileSingleOps p tags)) "custom.parts_trim" =
      jsTrim (yesNo (p.partsSelected.contains "trim") "Trim" "No Trim") ∧
    mfv (applyOps [] (compileSingleOps p tags)) "custom.parts_paddles" =
      jsTrim (yesNo (p.partsSelected.contains "paddles") "Paddles" "No Paddles") ∧
    mfv (applyOps [] (compileSingleOps p tags)) "custom.parts_magnetic_paddles" =
      jsTrim (yesNo (p.partsSelected.contains "magnetic_paddles") "Magnetic Paddles" "No Magnetic Paddles") ∧
    mfv (applyOps [] (compileSingleOps p tags)) "custom.parts_da_module" =
      jsTrim (yesNo (p.partsSelected.contains "da_module") "DA Module" "No DA Module") ∧
    mfv (applyOps [] (compileSingleOps p tags)) "custom.parts_return_label" =
      jsTrim (yesNo (p.partsSelected.contains "return_label") "Return Label" "No Return Label") ∧
    mfv (applyOps [] (compileSingleOps p tags)) "custom.parts_other" =
      (if "other" ∈ p.partsSelected ∧ jsTrim p.otherText ≠ ""
       then jsTrim (jsTrim p.otherText) else "") ∧
    mfv (applyOps [] (compileSingleOps p tags)) "custom.parts_set_aside_already" =
      (if "set_aside" ∈ p.partsSelected ∧ jsTrim p.setAsideText ≠ ""
       then jsTrim (jsTrim p.setAsideText) else "") ∧
    mfv (applyOps [] (compileSingleOps p tags)) "custom.ship_install_pickup" =
      jsTrim p.fulfillmentLabel ∧
    mfv (applyOps [] (compileSingleOps p tags)) "custom.pif_or_not" =
      jsTrim p.paymentLabel := by
  by_cases hc1 : "other" ∈ p.partsSelected ∧ jsTrim p.otherText ≠ "" <;>
  by_cases hc2 : "set_aside" ∈ p.partsSelected ∧ jsTrim p.setAsideText ≠ "" <;>
  by_cases hc3 : suppliersCsvOf tags ≠ "" <;>
  simp [compileSingleOps, applyOps, applyOp, mfv, mfLookup, jsTrim_empty, hc1, hc2, hc3]

lemma flag_iff (l : List String) (x yes no low : String)
    (hy : jsToLower (jsTrim yes) = low) (hn : jsToLower (jsTrim no) ≠ low) :
    (jsToLower (jsTrim (yesNo (l.contains x) yes no)) = low) ↔ x ∈ l := by
  cases hb : l.contains x
  · have hx : x ∉ l := by simpa using hb
    simp [yesNo, hn, hx]
  · have hx : x ∈ l := by simpa using hb
    simp [yesNo, hy, hx]

lemma mem_if_singleton (c : Prop) [Decidable c] (x y : String) :
    (x ∈ (if c then [y] else ([] : List String))) ↔ (c ∧ x = y) := by
  split <;> simp_all

/-- **C3.** Round trip: for a valid Classification (texts trimmed, each
annotated flag selected iff its text is non-blank as enforced by the parse
rule and validation, labels derived from the closed enumerations), applying
the single-order compiled field writes to a blank record and running the
initial-state extractor on the result reconstructs the Classification in
every field the compiler touches: completion marker set, both annotation
texts, fulfillment and payment choices, and all eight part flags. -/
theorem roundtrip_c3 (p : Parsed) (tags : List String)
    (hv : singleErrors p = [])
    (hOT : jsTrim p.otherText = p.otherText)
    (hST : jsTrim p.setAsideText = p.setAsideText)
    (hOP : p.otherText ≠ "" → "other" ∈ p.partsSelected)
    (hSP : p.setAsideText ≠ "" → "set_aside" ∈ p.partsSelected)
    (hFL : p.fulfillmentLabel = fulfillmentLabelOf p.fulfillmentVal)
    (hPL : p.paymentLabel = paymentLabelOf p.paymentVal)
    (hF : p.fulfillmentVal ∈ (["ship", "install_pickup", "tbd"] : List String))
    (hP : p.paymentVal ∈
      (["pif", "deposit", "pif_prepaid_install", "unpaid", "unknown"] : List String)) :
    (buildInitialsFromMetafields (applyOps [] (compileSingleOps p tags))).useMeta = true ∧
    (buildInitialsFromMetafields (applyOps [] (compileSingleOps p tags))).otherText = p.otherText ∧
    (buildInitialsFromMetafields (applyOps [] (compileSingleOps p tags))).setAsideText = p.setAsideText ∧
    (buildInitialsFromMetafields (applyOps [] (compileSingleOps p tags))).fulfillment = p.fulfillmentVal ∧
    (buildInitialsFromMetafields (applyOps [] (compileSingleOps p tags))).payment = p.paymentVal ∧
    (∀ part ∈ (["steering_wheel", "trim", "paddles", "magnetic_paddles", "da_module",
        "return_label", "other", "set_aside"] : List String),
      (part ∈ (buildInitialsFromMetafields (applyOps [] (compileSingleOps p tags))).partsSelections ↔
        part ∈ p.partsSelected)) := by
  obtain ⟨Lm, Lsw, Ltr, Lpd, Lmp, Lda, Lrl, Lot, Lsa, Lf, Lp⟩ := compileSingle_lookups p tags
  have hvo : ¬("other" ∈ p.partsSelected ∧ p.otherText = "") := by
    intro hcon
    rw [singleErrors,
      if_pos (show p.partsSelected.contains "other" = true ∧ p.otherText = "" from
        ⟨by simpa using hcon.1, hcon.2⟩)] at hv
    simp at hv
  have hvs : ¬("set_aside" ∈ p.partsSelected ∧ p.setAsideText = "") := by
    intro hcon
    rw [singleErrors] at hv
    have hB := (List.append_eq_nil.mp hv).2
    rw [if_pos (show p.partsSelected.contains "set_aside" = true ∧ p.setAsideText = "" from
      ⟨by simpa using hcon.1, hcon.2⟩)] at hB
    simp at hB
  have hOiff : ("other" ∈ p.partsSelected) ↔ p.otherText ≠ "" :=
    ⟨fun h he => hvo ⟨h, he⟩, hOP⟩
  have hSiff : ("set_aside" ∈ p.partsSelected) ↔ p.setAsideText ≠ "" :=
    ⟨fun h he => hvs ⟨h, he⟩, hSP⟩
  have hEOT : mfv (applyOps [] (compileSingleOps p tags)) "custom.parts_other" = p.otherText := by
    rw [Lot]
    by_cases ho : p.otherText = ""
    · rw [if_neg (by rw [hOT]; rintro ⟨hmem, hne⟩; exact hne ho), ho]
    · rw [if_pos (by rw [hOT]; exact ⟨hOiff.mpr ho, ho⟩), hOT, hOT]
  have hEST : mfv (applyOps [] (compileSingleOps p tags)) "custom.parts_set_aside_already"
      = p.setAsideText := by
    rw [Lsa]
    by_cases hs : p.setAsideText = ""
    · rw [if_neg (by rw [hST]; rintro ⟨hmem, hne⟩; exact hne hs), hs]
    · rw [if_pos (by rw [hST]; exact ⟨hSiff.mpr hs, hs⟩), hST, hST]
  have hyes : jsToLower (mfv (applyOps [] (compileSingleOps p tags))
      "custom.initial_slack_tagging_done") = "yes" := by
    rw [Lm]; decide
  have isw := Lsw ▸ flag_iff p.partsSelected "steering_wheel" "Steering Wheel"
    "No Steering Wheel" "steering wheel" (by decide) (by decide)
  have itr := Ltr ▸ flag_iff p.partsSelected "trim" "Trim" "No Trim" "trim"
    (by decide) (by decide)
  have ipd := Lpd ▸ flag_iff p.partsSelected "paddles" "Paddles" "No Paddles" "paddles"
    (by decide) (by decide)
  have imp := Lmp ▸ flag_iff p.partsSelected "magnetic_paddles" "Magnetic Paddles"
    "No Magnetic Paddles" "magnetic paddles" (by decide) (by decide)
  have ida := Lda ▸ flag_iff p.partsSelected "da_module" "DA Module" "No DA Module"
    "da module" (by decide) (by decide)
  have irl := Lrl ▸ flag_iff p.partsSelected "return_label" "Return Label"
    "No Return Label" "return label" (by decide) (by decide)
  refine ⟨?_, ?_, ?_, ?_, ?_, ?_⟩
  · simp [buildInitialsFromMetafields, hyes]
  · simp [buildInitialsFromMetafields, hyes, hEOT]
  · simp [buildInitialsFromMetafields, hyes, hEST]
  · simp only [List.mem_cons, List.not_mem_nil, or_false] at hF
    rcases hF with h | h | h <;> rw [h] at hFL ⊢ <;>
      simp [buildInitialsFromMetafields, hyes, Lf, hFL, fulfillmentLabelOf] <;> decide
  · simp only [List.mem_cons, List.not_mem_nil, or_false] at hP
    rcases hP with h | h | h | h | h <;> rw [h] at hPL ⊢ <;>
      simp [buildInitialsFromMetafields, hyes, Lp, hPL, paymentLabelOf] <;> decide
  · have hps : (buildInitialsFromMetafields (applyOps [] (compileSingleOps p tags))).partsSelections =
        (if "steering_wheel" ∈ p.partsSelected then ["steering_wheel"] else []) ++
        (if "trim" ∈ p.partsSelected then ["trim"] else []) ++
        (if "paddles" ∈ p.partsSelected then ["paddles"] else []) ++
        (if "magnetic_paddles" ∈ p.partsSelected then ["magnetic_paddles"] else []) ++
        (if "da_module" ∈ p.partsSelected then ["da_module"] else []) ++
        (if "return_label" ∈ p.partsSelected then ["return_label"] else []) ++
        (if p.otherText ≠ "" then ["other"] else []) ++
        (if p.setAsideText ≠ "" then ["set_aside"] else []) := by
      simp only [buildInitialsFromMetafields, hyes, hEOT, hEST, hOT, hST,
        isw, itr, ipd, imp, ida, irl]
      simp
    intro part hpart
    simp only [List.mem_cons, List.not_mem_nil, or_false] at hpart
    rcases hpart with rfl | rfl | rfl | rfl | rfl | rfl | rfl | rfl <;>
      simp [hps, List.mem_append, mem_if_singleton, hOiff, hSiff]

theorem roundtrip_c3_witness :
    (let p0 := parseModal ⟨["steering_wheel"], some " custom knob ", none,
      some "tbd", some "deposit"⟩;
     let m0 := applyOps [] (compileSingleOps p0 ["PartsSupplier_Acme"]);
     singleErrors p0 = [] ∧
     (buildInitialsFromMetafields m0).useMeta = true ∧
     (buildInitialsFromMetafields m0).otherText = p0.otherText ∧
     (buildInitialsFromMetafields m0).setAsideText = p0.setAsideText ∧
     (buildInitialsFromMetafields m0).fulfillment = p0.fulfillmentVal ∧
     (buildInitialsFromMetafields m0).payment = p0.paymentVal ∧
     ("other" ∈ (buildInitialsFromMetafields m0).partsSelections ↔
       "other" ∈ p0.partsSelected) ∧
     ("steering_wheel" ∈ (buildInitialsFromMetafields m0).partsSelections ↔
       "steering_wheel" ∈ p0.partsSelected)) :=
  ⟨by decide,
   (roundtrip_c3 (parseModal ⟨["steering_wheel"], some " custom knob ", none,
      some "tbd", some "deposit"⟩) ["PartsSupplier_Acme"] (by decide) (by decide) (by decide)
      (by decide) (by decide) (by decide) (by decide) (by decide) (by decide)).1,
   (roundtrip_c3 (parseModal ⟨["steering_wheel"], some " custom knob ", none,
      some "tbd", some "deposit"⟩) ["PartsSupplier_Acme"] (by decide) (by decide) (by decide)
      (by decide) (by decide) (by decide) (by decide) (by decide) (by decide)).2.1,
   (roundtrip_c3 (parseModal ⟨["steering_wheel"], some " custom knob ", none,
      some "tbd", some "deposit"⟩) ["PartsSupplier_Acme"] (by decide) (by decide) (by decide)
      (by decide) (by decide) (by decide) (by decide) (by decide) (by decide)).2.2.1,
   (roundtrip_c3 (parseModal ⟨["steering_wheel"], some " custom knob ", none,
      some "tbd", some "deposit"⟩) ["PartsSupplier_Acme"] (by decide) (by decide) (by decide)
      (by decide) (by decide) (by decide) (by decide) (by decide) (by decide)).2.2.2.1,
   (roundtrip_c3 (parseModal ⟨["steering_wheel"], some " custom knob ", none,
      some "tbd", some "deposit"⟩) ["PartsSupplier_Acme"] (by decide) (by decide) (by decide)
      (by decide) (by decide) (by decide) (by decide) (by decide) (by decide)).2.2.2.2.1,
   (roundtrip_c3 (parseModal ⟨["steering_wheel"], some " custom knob ", none,
      some "tbd", some "deposit"⟩) ["PartsSupplier_Acme"] (by decide) (by decide) (by decide)
      (by decide) (by decide) (by decide) (by decide) (by decide) (by decide)).2.2.2.2.2
      "other" (by decide),
   (roundtrip_c3 (parseModal ⟨["steering_wheel"], some " custom knob ", none,
      some "tbd", some "deposit"⟩) ["PartsSupplier_Acme"] (by decide) (by decide) (by decide)
      (by decide) (by decide) (by decide) (by decide) (by decide) (by decide)).2.2.2.2.2
      "steering_wheel" (by decide)⟩

lemma splitCharList_sepfree (sep : Char) (l : List Char) (h : sep ∉ l) :
    splitCharList sep l = [l] := by
  induction l with
  | nil => rfl
  | cons c cs ih =>
    have hc : c ≠ sep := fun he => h (he ▸ List.mem_cons_self c cs)
    have hcs : sep ∉ cs := fun hm => h (List.mem_cons_of_mem _ hm)
    rw [splitCharList, ih hcs]
    simp [hc]

lemma splitCharList_append (sep : Char) (a b : List Char) (ha : sep ∉ a) :
    splitCharList sep (a ++ sep :: b) = a :: splitCharList sep b := by
  induction a with
  | nil => simp [splitCharList]
  | cons c cs ih =>
    have hc : c ≠ sep := fun he => ha (he ▸ List.mem_cons_self c cs)
    have hcs : sep ∉ cs := fun hm => ha (List.mem_cons_of_mem _ hm)
    rw [List.cons_append, splitCharList, ih hcs]
    simp [hc]

lemma jsSplit_ns_key (ns key : String) (hns : '.' ∉ ns.data) (hkey : '.' ∉ key.data) :
    jsSplit (ns ++ "." ++ key) '.' = [ns, key] := by
  unfold jsSplit
  have hdata : (ns ++ "." ++ key).data = ns.data ++ '.' :: key.data := by
    rw [string_data_append, string_data_append]
    simp
  rw [hdata, splitCharList_append _ _ _ hns, splitCharList_sepfree _ _ hkey]
  rfl

lemma prefix_sepfree (sep : Char) :
    ∀ (zs xs ys : List Char), sep ∉ zs → sep ∉ xs →
      ((zs ++ [sep]).isPrefixOf (xs ++ sep :: ys) = true) → xs = zs := by
  intro zs
  induction zs with
  | nil =>
    intro xs ys _ hxs hp
    cases xs with
    | nil => rfl
    | cons x xs' =>
      simp [List.isPrefixOf] at hp
      exact (hxs (by rw [hp]; exact List.mem_cons_self x xs')).elim
  | cons z zs' ih =>
    intro xs ys hzs hxs hp
    cases xs with
    | nil =>
      simp [List.isPrefixOf] at hp
      exact absurd (hp.1 ▸ List.mem_cons_self z zs') hzs
    | cons x xs' =>
      simp only [List.cons_append, List.isPrefixOf, Bool.and_eq_true, beq_iff_eq] at hp
      have hx := ih xs' ys (fun hm => hzs (List.mem_cons_of_mem _ hm))
        (fun hm => hxs (List.mem_cons_of_mem _ hm)) hp.2
      rw [hx, hp.1]

/-- The fixed metafield keys the bulk worker writes or clears. -/
def bulkFixedKeys : List String :=
  ["nc_incoming", "arrange_status", "_nc_arranged_with", "_back_end_incoming_invoice",
   "parts_steering_wheel", "parts_trim", "parts_paddles", "parts_magnetic_paddles",
   "parts_da_module", "parts_return_label", "ship_install_pickup", "pif_or_not",
   "who_contacts", "packing_slip_notes", "initial_slack_tagging_done",
   "parts_other", "parts_set_aside_already", "parts_suppliers"]

lemma variant_shape (m : MfMap)
    (hkeys : ∀ k ∈ m.map Prod.fst, ∃ ns key, k = ns ++ "." ++ key ∧
      '.' ∉ ns.data ∧ '.' ∉ key.data) :
    ∀ k ∈ (m.map Prod.fst).filter
        (fun k => jsStartsWith k "custom." && jsIncludes k "nc_incoming"),
      ∃ key, k = "custom" ++ "." ++ key ∧ '.' ∉ key.data ∧
        (jsSplit k '.').getD 1 "" = key ∧ jsIncludes k "nc_incoming" = true := by
  intro k hk
  obtain ⟨hk1, hk2⟩ := List.mem_filter.mp hk
  obtain ⟨ns, key, hkeq, hns, hkey⟩ := hkeys k hk1
  rw [Bool.and_eq_true] at hk2
  have hpre : ("custom." : String).data.isPrefixOf k.data = true := hk2.1
  have hdata : k.data = ns.data ++ '.' :: key.data := by
    rw [hkeq, string_data_append, string_data_append]
    simp
  have hns_eq : ns = "custom" := by
    apply String.ext
    have hcd : ("custom." : String).data = ("custom" : String).data ++ ['.'] := rfl
    rw [hdata, hcd] at hpre
    exact prefix_sepfree '.' ("custom" : String).data ns.data key.data (by decide) hns hpre
  subst hns_eq
  refine ⟨key, hkeq, hkey, ?_, hk2.2⟩
  rw [hkeq, jsSplit_ns_key "custom" key (by decide) hkey]
  rfl

lemma incomingVariantKeys_nodup (m : MfMap)
    (hkeys : ∀ k ∈ m.map Prod.fst, ∃ ns key, k = ns ++ "." ++ key ∧
      '.' ∉ ns.data ∧ '.' ∉ key.data)
    (hnd : (m.map Prod.fst).Nodup) :
    (incomingVariantKeys m).Nodup := by
  unfold incomingVariantKeys
  apply List.Nodup.filter
  apply List.Nodup.map_on
  · intro k1 h1 k2 h2 heq
    obtain ⟨key1, e1, _, g1, _⟩ := variant_shape m hkeys k1 h1
    obtain ⟨key2, e2, _, g2, _⟩ := variant_shape m hkeys k2 h2
    rw [g1, g2] at heq
    rw [e1, e2, heq]
  · exact hnd.filter _

lemma incomingVariantKeys_fresh (m : MfMap)
    (hkeys : ∀ k ∈ m.map Prod.fst, ∃ ns key, k = ns ++ "." ++ key ∧
      '.' ∉ ns.data ∧ '.' ∉ key.data) :
    ∀ v ∈ incomingVariantKeys m, v ∉ bulkFixedKeys := by
  intro v hv hmem
  unfold incomingVariantKeys at hv
  obtain ⟨hv1, hv2⟩ := List.mem_filter.mp hv
  obtain ⟨k, hk, hgk⟩ := List.mem_map.mp hv1
  obtain ⟨key, hkeq, hkeyd, hgk2, hinc⟩ := variant_shape m hkeys k hk
  have hveq : v = key := by rw [← hgk, hgk2]
  subst hveq
  rw [hkeq] at hinc
  have hvne : v ≠ "nc_incoming" := by simpa using hv2
  simp only [bulkFixedKeys, List.mem_cons, List.not_mem_nil, or_false] at hmem
  rcases hmem with rfl | rfl | rfl | rfl | rfl | rfl | rfl | rfl | rfl | rfl | rfl | rfl |
    rfl | rfl | rfl | rfl | rfl | rfl
  · exact hvne rfl
  all_goals exact absurd hinc (by decide)

lemma opTarget_upsert (ns key v : String) (t : Option String) :
    opTarget (.upsert ns key v t) = (ns, key) := rfl

lemma opTarget_delete (ns key : String) : opTarget (.delete ns key) = (ns, key) := rfl

lemma arrangeOps_targets (m : MfMap) (s : String) :
    (arrangeOps m s).1.map opTarget = [] ∨
    (arrangeOps m s).1.map opTarget = [("custom", "_nc_arranged_with")] ∨
    (arrangeOps m s).1.map opTarget =
      [("custom", "arrange_status"), ("custom", "_nc_arranged_with")] := by
  unfold arrangeOps
  by_cases hA : mfv m "custom._nc_arranged_with" ≠ "" <;>
  by_cases hB : jsContainsChar (mfv m "custom._nc_arranged_with") '&' = true <;>
  simp only [hA, hB, ne_eq, not_true_eq_false, not_false_eq_true, if_true, if_false,
    Bool.false_eq_true] <;>
  first
  | (split_ifs <;> simp [opTarget])
  | simp [opTarget]

lemma arrangeOps_filter (m : MfMap) (s fk : String)
    (h1 : fk ≠ "arrange_status") (h2 : fk ≠ "_nc_arranged_with") :
    (arrangeOps m s).1.filter (fun op => opTarget op = ("custom", fk)) = [] := by
  unfold arrangeOps
  by_cases hA : mfv m "custom._nc_arranged_with" ≠ "" <;>
  by_cases hB : jsContainsChar (mfv m "custom._nc_arranged_with") '&' = true <;>
  simp only [hA, hB, ne_eq, not_true_eq_false, not_false_eq_true, if_true, if_false,
    Bool.false_eq_true] <;>
  first
  | (split_ifs <;> simp [opTarget, Ne.symm h1, Ne.symm h2])
  | simp [opTarget, Ne.symm h1, Ne.symm h2]

lemma variants_filter (m : MfMap)
    (hkeys : ∀ k ∈ m.map Prod.fst, ∃ ns key, k = ns ++ "." ++ key ∧
      '.' ∉ ns.data ∧ '.' ∉ key.data)
    (fk : String) (hfk : fk ∈ bulkFixedKeys) :
    ((incomingVariantKeys m).map (fun k => MfOp.upsert "custom" k "INCOMING" none)).filter
      (fun op => opTarget op = ("custom", fk)) = [] := by
  rw [List.filter_eq_nil_iff]
  intro op hop
  obtain ⟨v, hv, he⟩ := List.mem_map.mp hop
  subst he
  simp only [opTarget, Prod.mk.injEq, true_and, decide_eq_true_eq]
  intro h
  exact incomingVariantKeys_fresh m hkeys v hv (h ▸ hfk)

set_option maxHeartbeats 1000000 in
/-- **C6.** For every Classification and every well-formed existing field map
(keys of the form `namespace.key` with dot-free components, no duplicates),
the bulk compiler emits exactly one op per optional field — the annotation
upsert when the flag is selected with non-blank trimmed text (resp. the
suppliers upsert when the CSV is non-empty), the delete exactly otherwise,
never both and never neither — and no two ops in the whole batch target the
same (namespace, key). -/
theorem ops_per_field_c6 (p : Parsed) (ctx : BulkContext)
    (hkeys : ∀ k ∈ ctx.mfMap.map Prod.fst, ∃ ns key, k = ns ++ "." ++ key ∧
      '.' ∉ ns.data ∧ '.' ∉ key.data)
    (hnd : (ctx.mfMap.map Prod.fst).Nodup) :
    ((compileBulkOps p ctx).filter (fun op => opTarget op = ("custom", "parts_other")) =
      (if "other" ∈ p.partsSelected ∧ jsTrim p.otherText ≠ ""
       then [MfOp.upsert "custom" "parts_other" (jsTrim p.otherText) none]
       else [MfOp.delete "custom" "parts_other"])) ∧
    ((compileBulkOps p ctx).filter (fun op => opTarget op = ("custom", "parts_set_aside_already")) =
      (if "set_aside" ∈ p.partsSelected ∧ jsTrim p.setAsideText ≠ ""
       then [MfOp.upsert "custom" "parts_set_aside_already" (jsTrim p.setAsideText) none]
       else [MfOp.delete "custom" "parts_set_aside_already"])) ∧
    ((compileBulkOps p ctx).filter (fun op => opTarget op = ("custom", "parts_suppliers")) =
      (if suppliersCsvOf ctx.tags ≠ ""
       then [MfOp.upsert "custom" "parts_suppliers" (suppliersCsvOf ctx.tags) none]
       else [MfOp.delete "custom" "parts_suppliers"])) ∧
    ((compileBulkOps p ctx).map opTarget).Nodup := by
  have hfO := arrangeOps_filter ctx.mfMap ctx.invoiceSupplier "parts_other"
    (by decide) (by decide)
  have hfS := arrangeOps_filter ctx.mfMap ctx.invoiceSupplier "parts_set_aside_already"
    (by decide) (by decide)
  have hfP := arrangeOps_filter ctx.mfMap ctx.invoiceSupplier "parts_suppliers"
    (by decide) (by decide)
  have hvO := variants_filter ctx.mfMap hkeys "parts_other" (by decide)
  have hvS := variants_filter ctx.mfMap hkeys "parts_set_aside_already" (by decide)
  have hvP := variants_filter ctx.mfMap hkeys "parts_suppliers" (by decide)
  refine ⟨?_, ?_, ?_, ?_⟩
  · by_cases hc1 : "other" ∈ p.partsSelected ∧ jsTrim p.otherText ≠ "" <;>
    by_cases hc2 : "set_aside" ∈ p.partsSelected ∧ jsTrim p.setAsideText ≠ "" <;>
    by_cases hc3 : suppliersCsvOf ctx.tags ≠ "" <;>
      simp [compileBulkOps, opTarget_upsert, opTarget_delete, List.filter_append, hfO, hvO,
        hc1, hc2, hc3]
  · by_cases hc1 : "other" ∈ p.partsSelected ∧ jsTrim p.otherText ≠ "" <;>
    by_cases hc2 : "set_aside" ∈ p.partsSelected ∧ jsTrim p.setAsideText ≠ "" <;>
    by_cases hc3 : suppliersCsvOf ctx.tags ≠ "" <;>
      simp [compileBulkOps, opTarget_upsert, opTarget_delete, List.filter_append, hfS, hvS,
        hc1, hc2, hc3]
  · by_cases hc1 : "other" ∈ p.partsSelected ∧ jsTrim p.otherText ≠ "" <;>
    by_cases hc2 : "set_aside" ∈ p.partsSelected ∧ jsTrim p.setAsideText ≠ "" <;>
    by_cases hc3 : suppliersCsvOf ctx.tags ≠ "" <;>
      simp [compileBulkOps, opTarget_upsert, opTarget_delete, List.filter_append, hfP, hvP,
        hc1, hc2, hc3]
  · have hT : (compileBulkOps p ctx).map opTarget =
        (arrangeOps ctx.mfMap ctx.invoiceSupplier).1.map opTarget ++
        (("custom", "nc_incoming") ::
          ((incomingVariantKeys ctx.mfMap).map (fun k => ("custom", k)) ++
           [("custom", "_back_end_incoming_invoice"), ("custom", "parts_steering_wheel"),
            ("custom", "parts_trim"), ("custom", "parts_paddles"),
            ("custom", "parts_magnetic_paddles"), ("custom", "parts_da_module"),
            ("custom", "parts_return_label"), ("custom", "ship_install_pickup"),
            ("custom", "pif_or_not"), ("custom", "who_contacts"),
            ("custom", "packing_slip_notes"), ("custom", "initial_slack_tagging_done"),
            ("custom", "parts_other"), ("custom", "parts_set_aside_already"),
            ("custom", "parts_suppliers")])) := by
      by_cases hc1 : "other" ∈ p.partsSelected ∧ jsTrim p.otherText ≠ "" <;>
      by_cases hc2 : "set_aside" ∈ p.partsSelected ∧ jsTrim p.setAsideText ≠ "" <;>
      by_cases hc3 : suppliersCsvOf ctx.tags ≠ "" <;>
        simp [compileBulkOps, opTarget_upsert, opTarget_delete, hc1, hc2, hc3, Function.comp]
    have hvfresh := incomingVariantKeys_fresh ctx.mfMap hkeys
    have hVnotmem : ∀ fk : String, fk ∈ bulkFixedKeys →
        ("custom", fk) ∉ (incomingVariantKeys ctx.mfMap).map (fun k => ("custom", k)) := by
      intro fk hfk hmem
      obtain ⟨v, hv, he⟩ := List.mem_map.mp hmem
      have : v = fk := by simpa using he
      exact hvfresh v hv (this ▸ hfk)
    have hVnodup : ((incomingVariantKeys ctx.mfMap).map (fun k => ("custom", k))).Nodup :=
      (incomingVariantKeys_nodup ctx.mfMap hkeys hnd).map
        (fun a b h => by simpa using h)
    have hrest : (("custom", "nc_incoming") ::
        ((incomingVariantKeys ctx.mfMap).map (fun k => ("custom", k)) ++
         [("custom", "_back_end_incoming_invoice"), ("custom", "parts_steering_wheel"),
          ("custom", "parts_trim"), ("custom", "parts_paddles"),
          ("custom", "parts_magnetic_paddles"), ("custom", "parts_da_module"),
          ("custom", "parts_return_label"), ("custom", "ship_install_pickup"),
          ("custom", "pif_or_not"), ("custom", "who_contacts"),
          ("custom", "packing_slip_notes"), ("custom", "initial_slack_tagging_done"),
          ("custom", "parts_other"), ("custom", "parts_set_aside_already"),
          ("custom", "parts_suppliers")])).Nodup := by
      rw [List.nodup_cons]
      constructor
      · rw [List.mem_append]
        rintro (hmem | hmem)
        · exact hVnotmem "nc_incoming" (by decide) hmem
        · simp at hmem
      · rw [List.nodup_append]
        refine ⟨hVnodup, by decide, ?_⟩
        intro x hx
        obtain ⟨v, hv, he⟩ := List.mem_map.mp hx
        subst he
        intro hmem
        simp only [List.mem_cons, Prod.mk.injEq, List.not_mem_nil, or_false] at hmem
        rcases hmem with ⟨_, rfl⟩ | ⟨_, rfl⟩ | ⟨_, rfl⟩ | ⟨_, rfl⟩ | ⟨_, rfl⟩ | ⟨_, rfl⟩ |
          ⟨_, rfl⟩ | ⟨_, rfl⟩ | ⟨_, rfl⟩ | ⟨_, rfl⟩ | ⟨_, rfl⟩ | ⟨_, rfl⟩ | ⟨_, rfl⟩ |
          ⟨_, rfl⟩ | ⟨_, rfl⟩ <;>
          exact hvfresh _ hv (by decide)
    rw [hT]
    rcases arrangeOps_targets ctx.mfMap ctx.invoiceSupplier with ha | ha | ha <;> rw [ha]
    · simpa using hrest
    · rw [List.singleton_append, List.nodup_cons]
      refine ⟨?_, hrest⟩
      rw [List.mem_cons]
      rintro (h | h)
      · simp at h
      · rw [List.mem_append] at h
        rcases h with h | h
        · exact hVnotmem "_nc_arranged_with" (by decide) h
        · simp at h
    · rw [List.cons_append, List.singleton_append, List.nodup_cons, List.nodup_cons]
      refine ⟨?_, ?_, hrest⟩
      · rw [List.mem_cons, List.mem_cons]
        rintro (h | h | h)
        · simp at h
        · simp at h
        · rw [List.mem_append] at h
          rcases h with h | h
          · exact hVnotmem "arrange_status" (by decide) h
          · simp at h
      · rw [List.mem_cons]
        rintro (h | h)
        · simp at h
        · rw [List.mem_append] at h
          rcases h with h | h
          · exact hVnotmem "_nc_arranged_with" (by decide) h
          · simp at h

theorem ops_per_field_c6_witness :
    (let p0 := parseModal ⟨["steering_wheel"], none, none, none, none⟩;
     let ctx0 : BulkContext := ⟨[("custom.nc_incoming_old", "INCOMING"),
       ("custom._nc_arranged_with", "Acme & Bolt")], ["PartsSupplier_Acme"], "Acme", "Oct 2025"⟩;
     ((compileBulkOps p0 ctx0).filter (fun op => opTarget op = ("custom", "parts_other")) =
       (if "other" ∈ p0.partsSelected ∧ jsTrim p0.otherText ≠ ""
        then [MfOp.upsert "custom" "parts_other" (jsTrim p0.otherText) none]
        else [MfOp.delete "custom" "parts_other"])) ∧
     ((compileBulkOps p0 ctx0).filter (fun op => opTarget op = ("custom", "parts_suppliers")) =
       (if suppliersCsvOf ctx0.tags ≠ ""
        then [MfOp.upsert "custom" "parts_suppliers" (suppliersCsvOf ctx0.tags) none]
        else [MfOp.delete "custom" "parts_suppliers"])) ∧
     ((compileBulkOps p0 ctx0).map opTarget).Nodup) := by
  have h := ops_per_field_c6 (parseModal ⟨["steering_wheel"], none, none, none, none⟩)
    ⟨[("custom.nc_incoming_old", "INCOMING"),
      ("custom._nc_arranged_with", "Acme & Bolt")], ["PartsSupplier_Acme"], "Acme", "Oct 2025"⟩
    (by
      intro k hk
      simp only [List.map_cons, List.map_nil, List.mem_cons, List.not_mem_nil, or_false] at hk
      rcases hk with rfl | rfl
      · exact ⟨"custom", "nc_incoming_old", rfl, by decide, by decide⟩
      · exact ⟨"custom", "_nc_arranged_with", rfl, by decide, by decide⟩)
    (by decide)
  exact ⟨h.1, h.2.2.1, h.2.2.2⟩

end InvoiceBot
